import Mathlib

/-!
# Verification of the `reloadrable` hot-reload library

Shallow embedding of `reloadrable/reloadable.py`, `reloadable_manager.py` and
`reloadable_handler.py`, with theorems settling the specification claims about
the reload pipeline, instance migration, trigger registries and shutdown.

Python exceptions are modelled by an explicit error type, Python's `exec` and
`inspect` by an opaque context record (their results are inputs of the model),
and the regex `re.sub(r'@(autoreload|autoupdate)(_with\(.*\))?\n', '', source)`
by an executable character-level matcher with the same leftmost/greedy
semantics.
-/

namespace Reloadrable

/-- Python exceptions relevant to `reload()`:
`osError` is what `inspect.getsource` raises when source is unavailable,
`parseError` is Python's SyntaxError (the only exception `reload` catches),
`keyError` is raised by `local_env[self.target.__name__]` when the symbol is
missing, `attrError` by `module.__dict__` when `getmodule` returned `None`
and by a failed attribute lookup, `otherExc` stands for any other exception. -/
inductive PyExc where
  | osError
  | parseError
  | keyError
  | attrError
  | otherExc
deriving DecidableEq

/-! ## The directive-stripping regex of `Reloadable.reload` -/

/-- `lpre p s`: the characters `p` appear verbatim at the head of `s`. -/
def lpre : List Char → List Char → Bool
  | [], _ => true
  | _ :: _, [] => false
  | a :: as, b :: bs => a == b && lpre as bs

/-- Index of the first newline in `s`, if any; this bounds `.` in Python `re`,
which does not match a newline. -/
def findNl : List Char → Option Nat
  | [] => none
  | c :: cs => if c = '\n' then some 0 else (findNl cs).map (· + 1)

/-- the characters of `@autoreload` -/
def kwAR : List Char := ['@', 'a', 'u', 't', 'o', 'r', 'e', 'l', 'o', 'a', 'd']

/-- the characters of `@autoupdate` -/
def kwAU : List Char := ['@', 'a', 'u', 't', 'o', 'u', 'p', 'd', 'a', 't', 'e']

/-- the characters of `_with(` -/
def kwWith : List Char := ['_', 'w', 'i', 't', 'h', '(']

/-- Length matched by `_with\(.*\)\n` at the head of `s`, if it matches.
Since `.` cannot cross a newline, the only possible match runs to the first
newline, whose preceding character must be `)`. -/
def withTailLen (s : List Char) : Option Nat :=
  if lpre kwWith s then
    match findNl (s.drop 6) with
    | some k =>
      if 1 ≤ k ∧ (s.drop 6).get? (k - 1) = some ')' then some (6 + k + 1) else none
    | none => none
  else none

/-- Length matched by `@(autoreload|autoupdate)(_with\(.*\))?\n` at the head of
`s`, if it matches there.  The greedy `?` tries the `_with(...)` group first and
falls back to a bare newline right after the decorator name. -/
def directiveLen (s : List Char) : Option Nat :=
  if lpre kwAR s || lpre kwAU s then
    match withTailLen (s.drop 11) with
    | some m => some (11 + m)
    | none => if (s.drop 11).head? = some '\n' then some 12 else none
  else none

/-- Fuel-indexed left-to-right scan: delete each leftmost regex match, resume
after the deleted span, otherwise emit one character and continue.  Every step
consumes at least one character, so `s.length` fuel always suffices; the
`0, _ :: _` arm is unreachable under that fuel. -/
def stripFuel : Nat → List Char → List Char
  | _, [] => []
  | 0, _ :: _ => []
  | fuel + 1, c :: rest =>
    match directiveLen (c :: rest) with
    | some n => stripFuel fuel ((c :: rest).drop n)
    | none => c :: stripFuel fuel rest

/-- `re.sub(r'@(autoreload|autoupdate)(_with\(.*\))?\n', '', source)`:
scan left to right, delete each leftmost match, resume after the deleted span. -/
def stripDirectives (s : List Char) : List Char := stripFuel s.length s

/-! ## The reload pipeline (`Reloadable.reload`) -/

/-- The local environment a Python `exec` leaves behind: name → bound value. -/
def PyEnv (α : Type) := String → Option α

/-- What the Python runtime supplies to one `reload()` call: the result of
`inspect.getsource(self.target)`, whether `inspect.getmodule(self.target)`
found the defining module (whose `__dict__` is the globals of the re-execution),
and the outcome of `exec(text, module.__dict__, local_env)` on a given text. -/
structure ReloadCtx (α : Type) where
  getsource : Except PyExc (List Char)
  modPresent : Bool
  exec : List Char → Except PyExc (PyEnv α)

/-- The body of the `try:` block of `Reloadable.reload`, for a target whose
`__name__` is `name`: get the source, strip the reload directives, re-execute
in the defining module's namespace, index the local env by the target's name.
Each step short-circuits with the exception it raises (`module.__dict__` raises
AttributeError when `inspect.getmodule` returned `None`). -/
def reloadBody {α : Type} (R : ReloadCtx α) (name : String) : Except PyExc α :=
  match R.getsource with
  | .error e => .error e
  | .ok source =>
    if R.modPresent then
      match R.exec (stripDirectives source) with
      | .error e => .error e
      | .ok env =>
        match env name with
        | some t' => .ok t'
        | none => .error PyExc.keyError
    else .error PyExc.attrError

/-- Observable outcome of one `Reloadable.reload()` call: the `target` attribute
after the call, the exception propagating out of `reload` (if any), whether the
`except SyntaxError` arm logged, and whether `self.target = local_env[...]` ran. -/
structure ReloadOutcome (α : Type) where
  target : α
  raised : Option PyExc
  loggedError : Bool
  swapped : Bool

/-- `Reloadable.reload`: runs the body; only a SyntaxError is caught (and
logged); any other exception propagates; `self.target` is assigned only on
success. -/
def baseReload {α : Type} (R : ReloadCtx α) (nameOf : α → String) (t : α) :
    ReloadOutcome α :=
  match reloadBody R (nameOf t) with
  | .ok t' => ⟨t', none, false, true⟩
  | .error .parseError => ⟨t, none, true, false⟩
  | .error e => ⟨t, some e, false, false⟩

/-- Outcome of `ReloadableFunc.reload`: the base outcome plus the argument the
handler was invoked with (`none` when the handler was not invoked). -/
structure FuncReloadResult (α : Type) where
  out : ReloadOutcome α
  handlerArg : Option α

/-- `ReloadableFunc.reload`: `super().reload()`, then — provided no exception
propagated from it — log and invoke `self.handler.on_reloaded(self.target)`
when a handler is set.  `handlerSet` says whether `self.handler is not None`. -/
def funcReload {α : Type} (R : ReloadCtx α) (nameOf : α → String) (t : α)
    (handlerSet : Bool) : FuncReloadResult α :=
  let o := baseReload R nameOf t
  match o.raised with
  | some _ => ⟨o, none⟩
  | none => ⟨o, if handlerSet then some o.target else none⟩

/-! ## Function targets and `Reloadable.__call__` -/

/-- A Python function object: its `__name__` and its call behavior. -/
structure PyFunc where
  name : String
  impl : Nat → Nat

/-- `Reloadable.__call__`: `return self.target.__call__(*args, **kwargs)`,
for the current function target `t`. -/
def funcCall (t : PyFunc) (x : Nat) : Nat := t.impl x

/-! ## Class targets, instances, and `ReloadableClass` -/

/-- A live Python instance: its `__class__` (identified by a tag), its field
storage (`__dict__`), and its truthiness (`bool(instance)`). -/
structure Instance where
  cls : Nat
  fields : List (String × Nat)
  truthy : Bool
deriving DecidableEq

/-- The heap of instances; weak references are indices. `mem r = none` means
the referent of weakref `r` has been deallocated (`ref() is None`). -/
structure CHeap where
  mem : Nat → Option Instance
  next : Nat

/-- Dereference a weak reference: `ref_instance()`. -/
def CHeap.deref (h : CHeap) (r : Nat) : Option Instance := h.mem r

/-- Overwrite the instance a weak reference points at. -/
def CHeap.write (h : CHeap) (r : Nat) (i : Instance) : CHeap :=
  ⟨fun r' => if r' = r then some i else h.mem r', h.next⟩

/-- A Python class object: its identity tag, its `__name__`, the field storage
its constructor produces from the argument, and the truthiness its instances
report. -/
structure PyClass where
  tag : Nat
  name : String
  ctorFields : Nat → List (String × Nat)
  instTruthy : Bool

/-- State owned by a `ReloadableClass` wrapper: the current class target, the
`self.instances` list of weak references, and the heap they point into. -/
structure ClassState where
  target : PyClass
  instances : List Nat
  heap : CHeap

/-- The instance-migration loop of `ReloadableClass.reload`:
`for ref_instance in self.instances: instance = ref_instance();`
`if instance: instance.__class__ = self.target`.  Note the `if instance:`
truthiness test: a dead reference and a falsy live instance are both skipped. -/
def migrate (tag : Nat) : List Nat → CHeap → CHeap
  | [], h => h
  | r :: rs, h =>
    match h.deref r with
    | some inst =>
      migrate tag rs (if inst.truthy then h.write r { inst with cls := tag } else h)
    | none => migrate tag rs h

/-- Observable outcome of one `ReloadableClass.reload()` call. -/
structure ClassReloadResult where
  target : PyClass
  heap : CHeap
  raised : Option PyExc
  loggedError : Bool
  swapped : Bool
  handlerArg : Option PyClass

/-- `ReloadableClass.reload`: `super().reload()`, then — provided no exception
propagated — migrate the registered instances to the current target, log, and
invoke the handler when set. -/
def classReload (R : ReloadCtx PyClass) (st : ClassState) (handlerSet : Bool) :
    ClassReloadResult :=
  let o := baseReload R PyClass.name st.target
  match o.raised with
  | some e => ⟨o.target, st.heap, some e, o.loggedError, o.swapped, none⟩
  | none =>
    ⟨o.target, migrate o.target.tag st.instances st.heap, none, o.loggedError,
      o.swapped, if handlerSet then some o.target else none⟩

/-- `ReloadableClass.__call__`: construct an instance from the current target,
append a weak reference to it to `self.instances`, and return it. -/
def classCall (st : ClassState) (arg : Nat) : Instance × ClassState :=
  let inst : Instance :=
    { cls := st.target.tag, fields := st.target.ctorFields arg,
      truthy := st.target.instTruthy }
  let r := st.heap.next
  (inst,
    { st with
      instances := st.instances ++ [r],
      heap := ⟨fun r' => if r' = r then some inst else st.heap.mem r', r + 1⟩ })

/-! ## File-watch triggers (`Reloadable.start_on_modified_update`) -/

/-- An absolute file path, split as `dirname`/`basename` so that the
`dirname(filepath)` of the source and exact path equality are both explicit. -/
structure FPath where
  dir : String
  base : String
deriving DecidableEq

/-- One event handler attached to a directory watch: the closure state captured
by the `EventHandler` class in `start_on_modified_update` — the wrapper
(`this`, named by an id) and the exact `filepath` it compares against. -/
structure WHandler where
  unitId : Nat
  filepath : FPath
deriving DecidableEq

/-- `ReloadableManager.observer_dict`, as directory → handlers attached to the
observer watching that directory. -/
def lookupDir (st : List (String × List WHandler)) (d : String) :
    Option (List WHandler) :=
  (st.find? (fun e => e.1 == d)).map (fun e => e.2)

/-- `Reloadable.start_on_modified_update` for unit `u` whose watched file
resolved to `fp`: if the directory is already observed, add the handler to the
existing watch; otherwise schedule a new observer on the directory. -/
def startOnModified (st : List (String × List WHandler)) (u : Nat) (fp : FPath) :
    List (String × List WHandler) :=
  if (st.find? (fun e => e.1 == fp.dir)).isSome then
    st.map (fun e => if e.1 == fp.dir then (e.1, e.2 ++ [⟨u, fp⟩]) else e)
  else
    st ++ [(fp.dir, [⟨u, fp⟩])]

/-- A watchdog file-system event as seen by `EventHandler.on_modified`:
`event.is_directory` and `event.src_path`. -/
structure FsEvent where
  isDir : Bool
  srcPath : FPath

/-- Which units a modify event triggers a `reload()` on: the event is delivered
to the handlers of the watch on its directory; each `on_modified` returns early
on a directory event and calls `this.reload()` only when
`event.src_path == filepath`. -/
def dispatch (st : List (String × List WHandler)) (e : FsEvent) : List Nat :=
  match lookupDir st e.srcPath.dir with
  | none => []
  | some hs =>
    if e.isDir then []
    else (hs.filter (fun h => h.filepath == e.srcPath)).map (fun h => h.unitId)

/-- Number of OS-level watches on directory `d`. -/
def watchCount (st : List (String × List WHandler)) (d : String) : Nat :=
  (st.filter (fun e => e.1 == d)).length

/-- The registry keys are pairwise distinct (one entry per directory). -/
def keysNodup (st : List (String × List WHandler)) : Prop :=
  (st.map (fun e => e.1)).Nodup

/-! ## The manager's stop-all operations (`ReloadableManager`) -/

/-- One periodic worker thread (`Reloadable.AutoupdateThread`): its id and its
`stopping` event flag. -/
structure PThread where
  tid : Nat
  stopping : Bool
deriving DecidableEq

/-- Atomic operations `ReloadableManager` performs on threads and observers. -/
inductive MgrOp where
  | setFlag (tid : Nat)
  | clearThreads
  | stopObs (oid : Nat)
  | joinObs (oid : Nat)
  | clearObs
deriving DecidableEq

/-- `ReloadableManager.stop_periodic_updates`: set every registered worker's
`stopping` flag, then clear `thread_list`.  Returns the workers as they are
left after the call, the new registry, and the operation trace — there is no
`join` anywhere in it. -/
def stopPeriodicUpdates (threads : List PThread) :
    List PThread × List PThread × List MgrOp :=
  (threads.map (fun t => { t with stopping := true }), [],
    threads.map (fun t => MgrOp.setFlag t.tid) ++ [MgrOp.clearThreads])

/-- `ReloadableManager.stop_on_modified_updates` over `observer_dict`
(directory → observer id): `observer.stop(); observer.join()` for each entry,
then clear the registry.  Returns the new registry and the operation trace. -/
def stopOnModifiedUpdates (dict : List (String × Nat)) :
    List (String × Nat) × List MgrOp :=
  ([], (dict.map (fun e => [MgrOp.stopObs e.2, MgrOp.joinObs e.2])).flatten
        ++ [MgrOp.clearObs])

/-! ## Attribute proxying (`Reloadable.__getattr__`) -/

/-- A Python object as seen by attribute access: its ordinary attributes, and
its `__getattr__` method when its class defines one (plain functions and plain
classes define none). -/
structure PyObj where
  attrs : String → Option Nat
  getattrHook : Option (String → Except PyExc Nat)

/-- Ordinary Python attribute access `getattr(o, item)`: the attribute itself
if present, else the `__getattr__` fallback, else AttributeError. -/
def pyGetattr (o : PyObj) (item : String) : Except PyExc Nat :=
  match o.attrs item with
  | some v => .ok v
  | none =>
    match o.getattrHook with
    | some f => f item
    | none => .error PyExc.attrError

/-- `Reloadable.__getattr__`: `return self.target.__getattr__(item)` — it looks
up the `__getattr__` method on the target and calls it; when the target has no
such method, that lookup itself raises AttributeError. -/
def wrapperGetattr (target : PyObj) (item : String) : Except PyExc Nat :=
  match target.getattrHook with
  | none => .error PyExc.attrError
  | some f => f item

/-! ## Shared-state footprint of `reload()` (for the atomicity claim)

Each list element is one atomic action on the wrapper's shared `target` cell.
In CPython the attribute store `self.target = local_env[...]` is a single
bytecode executed under the GIL; every other step of `reload` works on
thread-local values and only reads the shared cell.  A concurrent
`Reloadable.__call__` loads `self.target` once, at some instant between two of
these actions, and then runs the loaded implementation in full. -/
def reloadActions {α : Type} (R : ReloadCtx α) (nameOf : α → String) (t : α) :
    List (α → α) :=
  [id, id, id, id] ++
    match reloadBody R (nameOf t) with
    | .ok t' => [fun _ => t']
    | .error _ => []

/-- The shared `target` cell after the first `k` atomic actions of a
`reload()` have run. -/
def runPrefix {α : Type} (acts : List (α → α)) (k : Nat) (t : α) : α :=
  (acts.take k).foldl (fun s a => a s) t

/-! ## Line-level characterisation of the stripping regex -/

/-- Join source lines into a text, one newline terminating each line. -/
def joinLines : List (List Char) → List Char
  | [] => []
  | l :: ls => l ++ '\n' :: joinLines ls

/-- `hasSub p l`: `p` occurs as a contiguous substring of `l`. -/
def hasSub (p : List Char) : List Char → Bool
  | [] => lpre p []
  | c :: cs => lpre p (c :: cs) || hasSub p cs

/-- A line the stripping regex cannot fire in: it contains neither directive
keyword. -/
def codeLine (l : List Char) : Bool := !(hasSub kwAR l || hasSub kwAU l)

/-- The shapes of reload-directive lines as they appear in decorated source:
a bare `@autoreload`/`@autoupdate`, or a single-line
`@autoreload_with(...)`/`@autoupdate_with(...)` call. -/
def GoodLine (l : List Char) : Prop :=
  codeLine l = true ∨ l = kwAR ∨ l = kwAU ∨
    (∃ args, ('\n' ∉ args) ∧
      (l = kwAR ++ kwWith ++ args ++ [')'] ∨ l = kwAU ++ kwWith ++ args ++ [')']))

/-! ## Concrete fixtures used by the scenario and the refutations -/

/-- `f(x) = x + 1`, the scenario's initial implementation. -/
def fAdd1 : PyFunc := ⟨"f", fun x => x + 1⟩

/-- `f(x) = x + 2`, the edited implementation. -/
def fAdd2 : PyFunc := ⟨"f", fun x => x + 2⟩

/-- the characters of `def f` -/
def codeLn : List Char := ['d', 'e', 'f', ' ', 'f']

/-- a decorated source: an `@autoreload` directive line above a code line. -/
def srcLines : List (List Char) := [kwAR, codeLn]

/-- the local environment produced by re-executing the edited source:
it binds `f` to the new implementation. -/
def envScen : PyEnv PyFunc := fun n => if n = "f" then some fAdd2 else none

/-- runtime context of the scenario: source available, module present, and
`exec` of the directive-free text defines `f` as `fAdd2`. -/
def scenCtx : ReloadCtx PyFunc :=
  ⟨.ok (joinLines srcLines), true,
    fun s => if s = joinLines [codeLn] then .ok envScen else .error PyExc.otherExc⟩

/-- context where `inspect.getsource` raises OSError: source unavailable. -/
def ctxNoSource : ReloadCtx PyFunc :=
  ⟨.error PyExc.osError, true, fun _ => .error PyExc.otherExc⟩

/-- context where the edited text no longer parses: `exec` raises SyntaxError. -/
def ctxBadParse : ReloadCtx PyFunc :=
  ⟨.ok (joinLines srcLines), true, fun _ => .error PyExc.parseError⟩

/-- context where re-execution defines no symbol named like the target. -/
def ctxNoSymbol : ReloadCtx PyFunc :=
  ⟨.ok (joinLines srcLines), true, fun _ => .ok (fun _ => none)⟩

/-- version 1 of a class `C` whose instances are falsy (`__bool__` is False). -/
def clsV1 : PyClass := ⟨1, "C", fun x => [("count", x)], false⟩

/-- the edited version 2 of the class `C`. -/
def clsV2 : PyClass := ⟨2, "C", fun x => [("count", x), ("extra", 0)], false⟩

/-- a live but falsy instance of `clsV1`. -/
def falsyInst : Instance := ⟨1, [("count", 0)], false⟩

/-- a live truthy instance of `clsV1`. -/
def truthyInst : Instance := ⟨1, [("count", 5)], true⟩

/-- a heap holding only `falsyInst`, behind weakref `0`. -/
def heapFalsy : CHeap := ⟨fun r => if r = 0 then some falsyInst else none, 1⟩

/-- a heap holding only `truthyInst`, behind weakref `0`; weakref `1` is dead. -/
def heapTruthy : CHeap := ⟨fun r => if r = 0 then some truthyInst else none, 2⟩

/-- class-wrapper state tracking the falsy instance. -/
def clsStFalsy : ClassState := ⟨clsV1, [0], heapFalsy⟩

/-- class-wrapper state tracking the truthy instance and a dead reference. -/
def clsStTruthy : ClassState := ⟨clsV1, [0, 1], heapTruthy⟩

/-- the local environment after re-executing the class source: binds `C` to
`clsV2`. -/
def envCls : PyEnv PyClass := fun n => if n = "C" then some clsV2 else none

/-- runtime context for a successful class reload. -/
def ctxCls : ReloadCtx PyClass :=
  ⟨.ok (joinLines srcLines), true,
    fun s => if s = joinLines [codeLn] then .ok envCls else .error PyExc.otherExc⟩

/-- runtime context for a class reload whose source is unavailable. -/
def ctxClsNoSource : ReloadCtx PyClass :=
  ⟨.error PyExc.osError, true, fun _ => .error PyExc.otherExc⟩

/-- a plain object (e.g. a function): it has an attribute `"x"` but its class
defines no `__getattr__`. -/
def objPlain : PyObj := ⟨fun n => if n = "x" then some 42 else none, none⟩

/-- an object whose class defines `__getattr__`, answering `7` everywhere. -/
def objHooked : PyObj := ⟨fun _ => none, some (fun _ => .ok 7)⟩

/-- a registry with one watch on directory `"d"`, dispatching to unit `0` for
file `a`. -/
def wSt0 : List (String × List WHandler) := [("d", [⟨0, ⟨"d", "a"⟩⟩])]

/-- a second watched file in the same directory `"d"`. -/
def wFp0 : FPath := ⟨"d", "b"⟩

/-- a modify event for file `a` of directory `"d"`. -/
def wEv0 : FsEvent := ⟨false, ⟨"d", "a"⟩⟩

/-- two registered periodic workers, neither stopping yet. -/
def wThreads : List PThread := [⟨0, false⟩, ⟨1, false⟩]

/-- a manager registry with one observer (id 7) on directory `"d"`. -/
def wDict : List (String × Nat) := [("d", 7)]

/-! ## Facts about the stripping scan -/

theorem directiveLen_pos {s : List Char} {n : Nat} (h : directiveLen s = some n) :
    1 ≤ n ∧ 1 ≤ s.length := by
  unfold directiveLen at h
  split at h
  · constructor
    · split at h
      · next m _ => cases h; omega
      · split at h
        · cases h; omega
        · cases h
    · next hp =>
      cases s with
      | nil => simp [lpre, kwAR, kwAU] at hp
      | cons a t => simp
  · cases h

theorem stripFuel_congr : ∀ (f1 f2 : Nat) (s : List Char),
    s.length ≤ f1 → s.length ≤ f2 → stripFuel f1 s = stripFuel f2 s := by
  intro f1
  induction f1 with
  | zero =>
    intro f2 s h1 _
    cases s with
    | nil => cases f2 <;> rfl
    | cons c rest => simp at h1
  | succ f1 ih =>
    intro f2 s h1 h2
    cases s with
    | nil => cases f2 <;> rfl
    | cons c rest =>
      cases f2 with
      | zero => simp at h2
      | succ f2 =>
        cases hd : directiveLen (c :: rest) with
        | some n =>
          simp only [stripFuel, hd]
          have hpos := directiveLen_pos hd
          simp only [List.length_cons] at h1 h2
          apply ih
          · simp only [List.length_drop, List.length_cons]; omega
          · simp only [List.length_drop, List.length_cons]; omega
        | none =>
          simp only [stripFuel, hd]
          simp only [List.length_cons] at h1 h2
          rw [ih f2 rest (by omega) (by omega)]

theorem stripDirectives_matched {s : List Char} {n : Nat}
    (h : directiveLen s = some n) :
    stripDirectives s = stripDirectives (s.drop n) := by
  have hpos := directiveLen_pos h
  cases s with
  | nil => simp at hpos
  | cons c rest =>
    show stripFuel (rest.length + 1) (c :: rest) = _
    simp only [stripFuel, h]
    apply stripFuel_congr
    · simp only [List.length_drop, List.length_cons]; omega
    · exact Nat.le_refl _

theorem stripDirectives_nil : stripDirectives [] = [] := rfl

theorem stripDirectives_unmatched {c : Char} {rest : List Char}
    (h : directiveLen (c :: rest) = none) :
    stripDirectives (c :: rest) = c :: stripDirectives rest := by
  show stripFuel (rest.length + 1) (c :: rest) = _
  simp only [stripFuel, h]
  rfl

theorem lpre_append : ∀ (p t : List Char), lpre p (p ++ t) = true
  | [], _ => rfl
  | a :: as, t => by simp [lpre, lpre_append as t]

theorem lpre_no_nl : ∀ {p xs : List Char} (ys : List Char), '\n' ∉ p →
    lpre p (xs ++ '\n' :: ys) = true → lpre p xs = true
  | [], _, _, _, _ => rfl
  | a :: as, [], ys, hnl, h => by
    simp only [List.nil_append, lpre, Bool.and_eq_true, beq_iff_eq] at h
    exact absurd (h.1 ▸ List.mem_cons_self a as) hnl
  | a :: as, x :: xs, ys, hnl, h => by
    simp only [List.cons_append, lpre, Bool.and_eq_true] at h ⊢
    exact ⟨h.1, lpre_no_nl ys (fun hm => hnl (List.mem_cons_of_mem a hm)) h.2⟩

theorem hasSub_tail_false {p c cs} (h : hasSub p (c :: cs) = false) :
    hasSub p cs = false := by
  simp only [hasSub, Bool.or_eq_false_iff] at h
  exact h.2

theorem hasSub_head_false {p c cs} (h : hasSub p (c :: cs) = false) :
    lpre p (c :: cs) = false := by
  simp only [hasSub, Bool.or_eq_false_iff] at h
  exact h.1

theorem hasSub_self_append (p : List Char) (hp : p ≠ []) (t : List Char) :
    hasSub p (p ++ t) = true := by
  cases p with
  | nil => exact absurd rfl hp
  | cons a as =>
    have h := lpre_append (a :: as) t
    simp only [List.cons_append] at h
    simp [hasSub, h]

theorem directiveLen_none_of_not_lpre {s : List Char}
    (h1 : lpre kwAR s = false) (h2 : lpre kwAU s = false) :
    directiveLen s = none := by
  unfold directiveLen
  simp [h1, h2]

/-- A code line passes through the stripping scan unchanged. -/
theorem strip_code_append {l : List Char} (rest : List Char)
    (hc : codeLine l = true) :
    stripDirectives (l ++ '\n' :: rest) = l ++ '\n' :: stripDirectives rest := by
  induction l with
  | nil =>
    have hd : directiveLen ('\n' :: rest) = none :=
      directiveLen_none_of_not_lpre rfl rfl
    simpa using stripDirectives_unmatched hd
  | cons c l ih =>
    have h1 : hasSub kwAR (c :: l) = false := by
      cases h' : hasSub kwAR (c :: l) with
      | false => rfl
      | true => unfold codeLine at hc; rw [h'] at hc; simp at hc
    have h2 : hasSub kwAU (c :: l) = false := by
      cases h' : hasSub kwAU (c :: l) with
      | false => rfl
      | true => unfold codeLine at hc; rw [h'] at hc; simp at hc
    have hAR : lpre kwAR ((c :: l) ++ '\n' :: rest) = false := by
      cases hx : lpre kwAR ((c :: l) ++ '\n' :: rest) with
      | false => rfl
      | true =>
        have := @lpre_no_nl kwAR (c :: l) rest (by decide) hx
        rw [hasSub_head_false h1] at this
        cases this
    have hAU : lpre kwAU ((c :: l) ++ '\n' :: rest) = false := by
      cases hx : lpre kwAU ((c :: l) ++ '\n' :: rest) with
      | false => rfl
      | true =>
        have := @lpre_no_nl kwAU (c :: l) rest (by decide) hx
        rw [hasSub_head_false h2] at this
        cases this
    have hd := directiveLen_none_of_not_lpre hAR hAU
    simp only [List.cons_append] at hd ⊢
    rw [stripDirectives_unmatched hd]
    have hc' : codeLine l = true := by
      simp [codeLine, hasSub_tail_false h1, hasSub_tail_false h2]
    rw [ih hc']

theorem drop_len_append (p t : List Char) : (p ++ t).drop p.length = t := by
  simp

/-- A bare `@autoreload`/`@autoupdate` line is removed together with its
newline. -/
theorem strip_directive_simple {kw : List Char} (hkw : kw = kwAR ∨ kw = kwAU)
    (rest : List Char) :
    stripDirectives (kw ++ '\n' :: rest) = stripDirectives rest := by
  have hd : directiveLen (kw ++ '\n' :: rest) = some 12 := by
    rcases hkw with h | h <;> subst h <;>
      simp [directiveLen, lpre_append, kwAR, kwAU, withTailLen, lpre, findNl]
  rw [stripDirectives_matched hd]
  rcases hkw with h | h <;> subst h <;> simp [kwAR, kwAU]

theorem findNl_append_no_nl {xs : List Char} (ys : List Char) (h : '\n' ∉ xs) :
    findNl (xs ++ ys) = (findNl ys).map (· + xs.length) := by
  induction xs with
  | nil =>
    cases h' : findNl ys <;> simp [h']
  | cons x xs ih =>
    have hx : ¬ x = '\n' := fun he => h (by simp [he])
    have hxs : '\n' ∉ xs := fun hm => h (List.mem_cons_of_mem x hm)
    simp only [List.cons_append, findNl, List.append_eq]
    rw [if_neg hx, ih hxs]
    cases h' : findNl ys <;> simp [h'] <;> omega

theorem get?_append_len (xs : List Char) (c : Char) (ys : List Char) :
    (xs ++ c :: ys).get? xs.length = some c := by
  induction xs with
  | nil => rfl
  | cons x xs ih => simpa using ih

/-- A single-line `@autoreload_with(...)`/`@autoupdate_with(...)` line is
removed together with its newline. -/
theorem strip_directive_with {kw : List Char} (hkw : kw = kwAR ∨ kw = kwAU)
    (args rest : List Char) (ha : '\n' ∉ args) :
    stripDirectives (kw ++ (kwWith ++ (args ++ ')' :: '\n' :: rest))) =
      stripDirectives rest := by
  have hlen : kw.length = 11 := by rcases hkw with h | h <;> subst h <;> rfl
  have hfind : findNl (args ++ ')' :: '\n' :: rest) = some (1 + args.length) := by
    rw [findNl_append_no_nl _ ha]
    rfl
  have hwith : withTailLen (kwWith ++ (args ++ ')' :: '\n' :: rest)) =
      some (8 + args.length) := by
    unfold withTailLen
    rw [if_pos (lpre_append kwWith _)]
    have hdrop : (kwWith ++ (args ++ ')' :: '\n' :: rest)).drop 6 =
        args ++ ')' :: '\n' :: rest := by
      simp [kwWith]
    rw [hdrop, hfind]
    have hidx : 1 + args.length - 1 = args.length := by omega
    show (if 1 ≤ 1 + args.length ∧
          (args ++ ')' :: '\n' :: rest).get? (1 + args.length - 1) = some ')'
        then some (6 + (1 + args.length) + 1) else none) = some (8 + args.length)
    rw [if_pos ⟨by omega, by rw [hidx]; exact get?_append_len args ')' ('\n' :: rest)⟩]
    congr 1
    omega
  have hd : directiveLen (kw ++ (kwWith ++ (args ++ ')' :: '\n' :: rest))) =
      some (19 + args.length) := by
    unfold directiveLen
    have hor : (lpre kwAR (kw ++ (kwWith ++ (args ++ ')' :: '\n' :: rest))) ||
        lpre kwAU (kw ++ (kwWith ++ (args ++ ')' :: '\n' :: rest)))) = true := by
      rcases hkw with h | h <;> subst h <;> simp [lpre_append]
    rw [if_pos hor]
    have hdrop : (kw ++ (kwWith ++ (args ++ ')' :: '\n' :: rest))).drop 11 =
        kwWith ++ (args ++ ')' :: '\n' :: rest) := by
      rw [← hlen]
      exact drop_len_append kw _
    rw [hdrop, hwith]
    show some (11 + (8 + args.length)) = some (19 + args.length)
    congr 1
    omega
  rw [stripDirectives_matched hd]
  have hsplit : (kw ++ (kwWith ++ (args ++ ')' :: '\n' :: rest))) =
      (kw ++ (kwWith ++ (args ++ [')', '\n']))) ++ rest := by simp
  rw [hsplit]
  have hplen : (kw ++ (kwWith ++ (args ++ [')', '\n']))).length = 19 + args.length := by
    have h6 : kwWith.length = 6 := rfl
    simp only [List.length_append, hlen, h6, List.length_cons, List.length_nil]
    omega
  rw [← hplen, drop_len_append]

/-- The stripping regex, run over a source whose lines are code lines and
standard-form directive lines, deletes exactly the directive lines. -/
theorem stripDirectives_lines (lines : List (List Char))
    (h : ∀ l ∈ lines, GoodLine l) :
    stripDirectives (joinLines lines) = joinLines (lines.filter codeLine) := by
  induction lines with
  | nil => simpa [joinLines] using stripDirectives_nil
  | cons l ls ih =>
    have hl := h l (List.mem_cons_self l ls)
    have hls : ∀ x ∈ ls, GoodLine x := fun x hx => h x (List.mem_cons_of_mem l hx)
    rcases hl with hc | hAR | hAU | ⟨args, hnl, hform⟩
    · rw [joinLines, strip_code_append _ hc, ih hls, List.filter_cons, if_pos hc,
        joinLines]
    · subst hAR
      have hcf : codeLine kwAR = false := by decide
      rw [joinLines, strip_directive_simple (Or.inl rfl), ih hls, List.filter_cons,
        if_neg (by simp [hcf])]
    · subst hAU
      have hcf : codeLine kwAU = false := by decide
      rw [joinLines, strip_directive_simple (Or.inr rfl), ih hls, List.filter_cons,
        if_neg (by simp [hcf])]
    · rcases hform with h' | h' <;> subst h'
      · have hcf : codeLine (kwAR ++ (kwWith ++ (args ++ [')']))) = false := by
          unfold codeLine
          simp [hasSub_self_append kwAR (by decide) (kwWith ++ (args ++ [')']))]
        rw [joinLines, List.filter_cons, if_neg (by simp [hcf])]
        have he : (kwAR ++ kwWith ++ args ++ [')']) ++ '\n' :: joinLines ls =
            kwAR ++ (kwWith ++ (args ++ ')' :: '\n' :: joinLines ls)) := by simp
        rw [he, strip_directive_with (Or.inl rfl) args _ hnl, ih hls]
      · have hcf : codeLine (kwAU ++ (kwWith ++ (args ++ [')']))) = false := by
          unfold codeLine
          simp [hasSub_self_append kwAU (by decide) (kwWith ++ (args ++ [')']))]
        rw [joinLines, List.filter_cons, if_neg (by simp [hcf])]
        have he : (kwAU ++ kwWith ++ args ++ [')']) ++ '\n' :: joinLines ls =
            kwAU ++ (kwWith ++ (args ++ ')' :: '\n' :: joinLines ls)) := by simp
        rw [he, strip_directive_with (Or.inr rfl) args _ hnl, ih hls]

/-! ## Facts about the reload pipeline -/

theorem reloadBody_src_error {α : Type} {R : ReloadCtx α} {name : String}
    {e : PyExc} (h : R.getsource = .error e) : reloadBody R name = .error e := by
  unfold reloadBody
  rw [h]

theorem reloadBody_ok_parts {α : Type} {R : ReloadCtx α} {name : String}
    {src : List Char} {env : PyEnv α} {t' : α}
    (h1 : R.getsource = .ok src) (h2 : R.modPresent = true)
    (h3 : R.exec (stripDirectives src) = .ok env) (h4 : env name = some t') :
    reloadBody R name = .ok t' := by
  unfold reloadBody
  rw [h1]
  dsimp only
  rw [h2, if_pos rfl, h3]
  dsimp only
  rw [h4]

theorem reloadBody_exec_error {α : Type} {R : ReloadCtx α} {name : String}
    {src : List Char} {e : PyExc}
    (h1 : R.getsource = .ok src) (h2 : R.modPresent = true)
    (h3 : R.exec (stripDirectives src) = .error e) :
    reloadBody R name = .error e := by
  unfold reloadBody
  rw [h1]
  dsimp only
  rw [h2, if_pos rfl, h3]

theorem reloadBody_sym_missing {α : Type} {R : ReloadCtx α} {name : String}
    {src : List Char} {env : PyEnv α}
    (h1 : R.getsource = .ok src) (h2 : R.modPresent = true)
    (h3 : R.exec (stripDirectives src) = .ok env) (h4 : env name = none) :
    reloadBody R name = .error PyExc.keyError := by
  unfold reloadBody
  rw [h1]
  dsimp only
  rw [h2, if_pos rfl, h3]
  dsimp only
  rw [h4]

theorem baseReload_ok {α : Type} {R : ReloadCtx α} {nameOf : α → String} {t t' : α}
    (h : reloadBody R (nameOf t) = .ok t') :
    baseReload R nameOf t = ⟨t', none, false, true⟩ := by
  unfold baseReload
  rw [h]

theorem baseReload_caught {α : Type} {R : ReloadCtx α} {nameOf : α → String} {t : α}
    (h : reloadBody R (nameOf t) = .error PyExc.parseError) :
    baseReload R nameOf t = ⟨t, none, true, false⟩ := by
  unfold baseReload
  rw [h]

theorem baseReload_raises {α : Type} {R : ReloadCtx α} {nameOf : α → String} {t : α}
    {e : PyExc} (h : reloadBody R (nameOf t) = .error e)
    (hne : e ≠ PyExc.parseError) :
    baseReload R nameOf t = ⟨t, some e, false, false⟩ := by
  unfold baseReload
  rw [h]
  cases e with
  | parseError => exact absurd rfl hne
  | osError => rfl
  | keyError => rfl
  | attrError => rfl
  | otherExc => rfl

theorem baseReload_target_of_error {α : Type} {R : ReloadCtx α}
    {nameOf : α → String} {t : α} {e : PyExc}
    (h : reloadBody R (nameOf t) = .error e) :
    (baseReload R nameOf t).target = t := by
  by_cases hp : e = PyExc.parseError
  · subst hp; rw [baseReload_caught h]
  · rw [baseReload_raises h hp]

/-! ## Facts about instance migration -/

theorem migrate_deref (tag : Nat) (rs : List Nat) (h : CHeap) (r : Nat) :
    (migrate tag rs h).deref r =
      match h.deref r with
      | none => none
      | some i =>
        if r ∈ rs ∧ i.truthy then some ⟨tag, i.fields, i.truthy⟩ else some i := by
  induction rs generalizing h with
  | nil =>
    unfold migrate
    cases hr : h.deref r <;> simp
  | cons a rs ih =>
    unfold migrate
    cases ha : h.deref a with
    | none =>
      rw [ih]
      cases hr : h.deref r with
      | none => rfl
      | some i =>
        have hra : ¬ r = a := fun he => by rw [he, ha] at hr; cases hr
        simp [hra]
    | some ia =>
      dsimp only
      by_cases hta : ia.truthy = true
      · rw [if_pos hta, ih]
        by_cases hra : r = a
        · subst hra
          have hw : (h.write r { ia with cls := tag }).deref r =
              some { ia with cls := tag } := by simp [CHeap.write, CHeap.deref]
          rw [hw, ha]
          by_cases hmem : r ∈ rs <;> simp [hmem, hta]
        · have hw : (h.write a { ia with cls := tag }).deref r = h.deref r := by
            simp [CHeap.write, CHeap.deref, hra]
          rw [hw]
          cases hr : h.deref r with
          | none => rfl
          | some i => simp [hra]
      · rw [if_neg hta, ih]
        cases hr : h.deref r with
        | none => rfl
        | some i =>
          by_cases hra : r = a
          · subst hra
            rw [ha] at hr
            injection hr with hii
            subst hii
            simp [hta]
          · simp [hra]

theorem baseReload_cases {α : Type} (R : ReloadCtx α) (nameOf : α → String)
    (t : α) :
    (∃ t', reloadBody R (nameOf t) = .ok t' ∧
      baseReload R nameOf t = ⟨t', none, false, true⟩) ∨
    (reloadBody R (nameOf t) = .error PyExc.parseError ∧
      baseReload R nameOf t = ⟨t, none, true, false⟩) ∨
    (∃ e, reloadBody R (nameOf t) = .error e ∧ e ≠ PyExc.parseError ∧
      baseReload R nameOf t = ⟨t, some e, false, false⟩) := by
  cases hb : reloadBody R (nameOf t) with
  | ok t' => exact Or.inl ⟨t', rfl, baseReload_ok hb⟩
  | error e =>
    by_cases hp : e = PyExc.parseError
    · subst hp
      exact Or.inr (Or.inl ⟨rfl, baseReload_caught hb⟩)
    · exact Or.inr (Or.inr ⟨e, rfl, hp, baseReload_raises hb hp⟩)

theorem funcReload_out {α : Type} (R : ReloadCtx α) (nameOf : α → String) (t : α)
    (hs : Bool) : (funcReload R nameOf t hs).out = baseReload R nameOf t := by
  unfold funcReload
  cases ho : (baseReload R nameOf t).raised <;> simp [ho]

theorem classReload_target (R : ReloadCtx PyClass) (st : ClassState) (hs : Bool) :
    (classReload R st hs).target = (baseReload R PyClass.name st.target).target := by
  unfold classReload
  cases ho : (baseReload R PyClass.name st.target).raised <;> simp [ho]

/-! ## Facts about the watch registry -/

theorem keys_map_start (st : List (String × List WHandler)) (u : Nat) (fp : FPath) :
    (st.map (fun e => if e.1 == fp.dir then (e.1, e.2 ++ [⟨u, fp⟩]) else e)).map
      (fun e => e.1) = st.map (fun e => e.1) := by
  induction st with
  | nil => rfl
  | cons a st ih =>
    simp only [List.map_cons, ih]
    by_cases h : (a.1 == fp.dir) = true
    · rw [if_pos h]
    · rw [if_neg h]

theorem startOnModified_keysNodup {st : List (String × List WHandler)} (u : Nat)
    (fp : FPath) (h : keysNodup st) : keysNodup (startOnModified st u fp) := by
  unfold startOnModified
  by_cases hf : (st.find? (fun e => e.1 == fp.dir)).isSome = true
  · rw [if_pos hf]
    unfold keysNodup at *
    rw [keys_map_start]
    exact h
  · rw [if_neg hf]
    unfold keysNodup at *
    rw [List.map_append]
    have hnone : st.find? (fun e => e.1 == fp.dir) = none :=
      Option.not_isSome_iff_eq_none.mp hf
    have hnotin : fp.dir ∉ st.map (fun e => e.1) := by
      intro hmem
      obtain ⟨en, hen, heq⟩ := List.mem_map.mp hmem
      have := List.find?_eq_none.mp hnone en hen
      rw [heq] at this
      simp at this
    refine List.Nodup.append h (List.nodup_singleton _) ?_
    intro a ha1 ha2
    simp only [List.map_cons, List.map_nil, List.mem_singleton] at ha2
    exact hnotin (ha2 ▸ ha1)

theorem watchCount_le_one {st : List (String × List WHandler)} (h : keysNodup st)
    (d : String) : watchCount st d ≤ 1 := by
  unfold watchCount
  induction st with
  | nil => simp
  | cons a st ih =>
    unfold keysNodup at h
    simp only [List.map_cons, List.nodup_cons] at h
    rw [List.filter_cons]
    by_cases ha : (a.1 == d) = true
    · rw [if_pos ha]
      have hfe : st.filter (fun e => e.1 == d) = [] := by
        rw [List.filter_eq_nil_iff]
        intro en hen hc
        apply h.1
        have : a.1 = en.1 := by
          have h1 : a.1 = d := by simpa using ha
          have h2 : en.1 = d := by simpa using hc
          rw [h1, h2]
        rw [this]
        exact List.mem_map_of_mem _ hen
      simp [hfe]
    · rw [if_neg ha]
      exact ih h.2

theorem dispatch_mem (st : List (String × List WHandler)) (e : FsEvent) (x : Nat) :
    x ∈ dispatch st e ↔
      e.isDir = false ∧ ∃ hs, lookupDir st e.srcPath.dir = some hs ∧
        ∃ h ∈ hs, h.unitId = x ∧ h.filepath = e.srcPath := by
  unfold dispatch
  cases hl : lookupDir st e.srcPath.dir with
  | none => simp
  | some hsx =>
    cases hd : e.isDir with
    | true => simp [hd]
    | false =>
      simp only [hd, if_false, Bool.false_eq_true, List.mem_map, List.mem_filter,
        Option.some.injEq]
      constructor
      · rintro ⟨hh, ⟨hmem, hfp⟩, hid⟩
        refine ⟨trivial, hsx, rfl, hh, hmem, hid, ?_⟩
        simpa using hfp
      · rintro ⟨-, hs, rfl, hh, hmem, hid, hfp⟩
        exact ⟨hh, ⟨hmem, by simp [hfp]⟩, hid⟩

/-! ## Facts about the manager's stop traces -/

theorem takeWhile_append_of_all (p : MgrOp → Bool) (xs ys : List MgrOp)
    (h : ∀ x ∈ xs, p x = true) :
    (xs ++ ys).takeWhile p = xs ++ ys.takeWhile p := by
  induction xs with
  | nil => rfl
  | cons a xs ih =>
    have ha := h a (List.mem_cons_self a xs)
    rw [List.cons_append, List.takeWhile_cons, if_pos ha,
      ih (fun x hx => h x (List.mem_cons_of_mem a hx))]
    rfl

/-! ## The claims -/

/-- **C1**, refutation: the claim says all three reload failure kinds are
caught and logged inside `reload()`.  On the code, only SyntaxError is caught:
with the unit's source unavailable (`inspect.getsource` raises OSError),
`reload()` lets the exception propagate and logs nothing; likewise a missing
symbol (KeyError) propagates. -/
theorem claim_C1_counterexample :
    (baseReload ctxNoSource PyFunc.name fAdd1).raised ≠ none ∧
    (baseReload ctxNoSource PyFunc.name fAdd1).raised = some PyExc.osError ∧
    (baseReload ctxNoSource PyFunc.name fAdd1).loggedError = false ∧
    (baseReload ctxNoSymbol PyFunc.name fAdd1).raised = some PyExc.keyError := by
  refine ⟨?_, rfl, rfl, rfl⟩
  intro h
  cases h

/-- **C1** (amended): of the three reload failure kinds only ParseFailure
(Python SyntaxError) is caught and logged inside `reload()`; SourceUnavailable
(OSError) and SymbolNotFound (KeyError) propagate out of `reload()` to its
direct caller, and the failed attempt is not logged by the `except` arm. -/
theorem claim_C1_amended :
    (∀ (α : Type) (R : ReloadCtx α) (nameOf : α → String) (t : α),
      R.getsource = .error PyExc.osError →
        (baseReload R nameOf t).raised = some PyExc.osError ∧
        (baseReload R nameOf t).loggedError = false) ∧
    (∀ (α : Type) (R : ReloadCtx α) (nameOf : α → String) (t : α)
        (src : List Char),
      R.getsource = .ok src → R.modPresent = true →
      R.exec (stripDirectives src) = .error PyExc.parseError →
        (baseReload R nameOf t).raised = none ∧
        (baseReload R nameOf t).loggedError = true) ∧
    (∀ (α : Type) (R : ReloadCtx α) (nameOf : α → String) (t : α)
        (src : List Char) (env : PyEnv α),
      R.getsource = .ok src → R.modPresent = true →
      R.exec (stripDirectives src) = .ok env → env (nameOf t) = none →
        (baseReload R nameOf t).raised = some PyExc.keyError) := by
  refine ⟨?_, ?_, ?_⟩
  · intro α R nameOf t h
    rw [baseReload_raises (reloadBody_src_error h) (by decide)]
    exact ⟨rfl, rfl⟩
  · intro α R nameOf t src h1 h2 h3
    rw [baseReload_caught (reloadBody_exec_error h1 h2 h3)]
    exact ⟨rfl, rfl⟩
  · intro α R nameOf t src env h1 h2 h3 h4
    rw [baseReload_raises (reloadBody_sym_missing h1 h2 h3 h4) (by decide)]

theorem claim_C1_witness :
    ((baseReload ctxNoSource PyFunc.name fAdd1).raised = some PyExc.osError ∧
      (baseReload ctxNoSource PyFunc.name fAdd1).loggedError = false) ∧
    ((baseReload ctxBadParse PyFunc.name fAdd1).raised = none ∧
      (baseReload ctxBadParse PyFunc.name fAdd1).loggedError = true) ∧
    (baseReload ctxNoSymbol PyFunc.name fAdd1).raised = some PyExc.keyError :=
  ⟨claim_C1_amended.1 PyFunc ctxNoSource PyFunc.name fAdd1 rfl,
    claim_C1_amended.2.1 PyFunc ctxBadParse PyFunc.name fAdd1
      (joinLines srcLines) rfl rfl rfl,
    claim_C1_amended.2.2 PyFunc ctxNoSymbol PyFunc.name fAdd1
      (joinLines srcLines) (fun _ => none) rfl rfl rfl rfl⟩

/-- **C2**: a reload attempt that fails — with any of the three failure kinds,
caught or not — leaves the wrapper's `target` identical to its value before
the call, for the base wrapper, the function wrapper and the class wrapper. -/
theorem claim_C2 :
    (∀ (α : Type) (R : ReloadCtx α) (nameOf : α → String) (t : α) (e : PyExc)
        (hs : Bool), reloadBody R (nameOf t) = .error e →
      (baseReload R nameOf t).target = t ∧
      (funcReload R nameOf t hs).out.target = t) ∧
    (∀ (R : ReloadCtx PyClass) (st : ClassState) (hs : Bool) (e : PyExc),
      reloadBody R st.target.name = .error e →
      (classReload R st hs).target = st.target) := by
  constructor
  · intro α R nameOf t e hs h
    exact ⟨baseReload_target_of_error h,
      by rw [funcReload_out]; exact baseReload_target_of_error h⟩
  · intro R st hs e h
    rw [classReload_target]
    exact baseReload_target_of_error h

theorem claim_C2_witness :
    ((baseReload ctxBadParse PyFunc.name fAdd1).target = fAdd1 ∧
      (funcReload ctxBadParse PyFunc.name fAdd1 true).out.target = fAdd1) ∧
    (classReload ctxClsNoSource clsStFalsy false).target = clsStFalsy.target :=
  ⟨claim_C2.1 PyFunc ctxBadParse PyFunc.name fAdd1 PyExc.parseError true rfl,
    claim_C2.2 ctxClsNoSource clsStFalsy false PyExc.osError rfl⟩

/-- **C3**, refutation: the claim says the handler is invoked exactly on
successful reloads.  On the code, after a reload attempt that failed with a
caught parse error (`swapped = false`), `ReloadableFunc.reload` still invokes
`handler.on_reloaded` — with the old target. -/
theorem claim_C3_counterexample :
    (funcReload ctxBadParse PyFunc.name fAdd1 true).out.swapped = false ∧
    (funcReload ctxBadParse PyFunc.name fAdd1 true).handlerArg = some fAdd1 :=
  ⟨rfl, rfl⟩

/-- **C3** (amended): with a handler set, `handler.on_reloaded(target)` is
invoked after every reload attempt from which no exception propagates — i.e.
after every successful reload (then with the freshly swapped-in target) and
also after every caught parse failure (then with the unchanged old target);
it is not invoked when the attempt raises, nor when no handler is set. -/
theorem claim_C3_amended :
    (∀ (α : Type) (R : ReloadCtx α) (nameOf : α → String) (t : α) (hs : Bool),
      (funcReload R nameOf t hs).handlerArg =
        if (funcReload R nameOf t hs).out.raised = none ∧ hs = true
        then some (funcReload R nameOf t hs).out.target else none) ∧
    (∀ (R : ReloadCtx PyClass) (st : ClassState) (hs : Bool),
      (classReload R st hs).handlerArg =
        if (classReload R st hs).raised = none ∧ hs = true
        then some (classReload R st hs).target else none) := by
  constructor
  · intro α R nameOf t hs
    unfold funcReload
    cases ho : (baseReload R nameOf t).raised with
    | some e => simp [ho]
    | none => cases hs <;> simp [ho]
  · intro R st hs
    unfold classReload
    cases ho : (baseReload R PyClass.name st.target).raised with
    | some e => simp [ho]
    | none => cases hs <;> simp [ho]

/-- **C4**, refutation: the claim says every still-resolvable registry entry is
retargeted after a successful reload.  On the code the migration loop guards
with `if instance:` — Python truthiness, not a liveness test — so a live but
falsy instance is left on the old class even though its weak handle resolves. -/
theorem claim_C4_counterexample :
    (classReload ctxCls clsStFalsy false).swapped = true ∧
    (classReload ctxCls clsStFalsy false).target = clsV2 ∧
    clsStFalsy.heap.deref 0 = some falsyInst ∧
    (classReload ctxCls clsStFalsy false).heap.deref 0 = some falsyInst ∧
    falsyInst.cls ≠ clsV2.tag :=
  ⟨rfl, rfl, rfl, rfl, by decide⟩

/-- **C4** (amended): after a successful class reload, every registry entry
whose weak handle resolves to a truthy instance has that instance's `__class__`
retargeted to the new class with its field storage and truthiness unchanged;
entries that are dead, and entries resolving to a falsy live instance, are
skipped — the heap is untouched at them and no error is raised. -/
theorem claim_C4_amended (R : ReloadCtx PyClass) (st : ClassState) (hs : Bool)
    (hsw : (classReload R st hs).swapped = true) (r : Nat) :
    (classReload R st hs).heap.deref r =
      match st.heap.deref r with
      | none => none
      | some i =>
        if r ∈ st.instances ∧ i.truthy = true then
          some ⟨(classReload R st hs).target.tag, i.fields, i.truthy⟩
        else some i := by
  rcases baseReload_cases R PyClass.name st.target with
    ⟨t', hb, he⟩ | ⟨hb, he⟩ | ⟨e, hb, hne, he⟩
  · unfold classReload at hsw ⊢
    rw [he]
    exact migrate_deref _ _ _ _
  · unfold classReload at hsw
    rw [he] at hsw
    cases hsw
  · unfold classReload at hsw
    rw [he] at hsw
    cases hsw

theorem claim_C4_witness :
    (classReload ctxCls clsStTruthy false).swapped = true ∧
    (classReload ctxCls clsStTruthy false).heap.deref 0 =
      some ⟨(classReload ctxCls clsStTruthy false).target.tag,
        truthyInst.fields, truthyInst.truthy⟩ ∧
    (classReload ctxCls clsStTruthy false).heap.deref 1 = none := by
  refine ⟨rfl, ?_, ?_⟩
  · rw [claim_C4_amended ctxCls clsStTruthy false rfl 0]
    rfl
  · rw [claim_C4_amended ctxCls clsStTruthy false rfl 1]
    rfl

/-- **C5**: `call` forwards the arguments to the current target — wrapping
`f(x) = x + 1` gives `call 5 = 6`, and after a successful reload to
`f(x) = x + 2`, `call 5 = 7` — and for a class-kind unit each call constructs
an instance from the current class, appends exactly one weak handle to it to
the registry, and returns that instance. -/
theorem claim_C5 :
    (∀ (t : PyFunc) (x : Nat), funcCall t x = t.impl x) ∧
    (funcCall fAdd1 5 = 6 ∧
      (funcReload scenCtx PyFunc.name fAdd1 false).out.target = fAdd2 ∧
      funcCall (funcReload scenCtx PyFunc.name fAdd1 false).out.target 5 = 7) ∧
    (∀ (st : ClassState) (arg : Nat),
      (classCall st arg).1 =
        ⟨st.target.tag, st.target.ctorFields arg, st.target.instTruthy⟩ ∧
      (classCall st arg).2.instances = st.instances ++ [st.heap.next] ∧
      (classCall st arg).2.heap.deref st.heap.next = some (classCall st arg).1 ∧
      (classCall st arg).2.target = st.target) := by
  refine ⟨fun t x => rfl, ⟨rfl, rfl, rfl⟩, fun st arg => ⟨rfl, rfl, ?_, rfl⟩⟩
  simp [classCall, CHeap.deref]

/-- **C6**: the swap of `target` performed by `reload()` is atomic with respect
to concurrent calls: decomposing one `reload()` into its atomic actions on the
shared `target` cell (all work is thread-local except the single attribute
store, executed at most once), after any prefix of those actions the cell holds
either the pre-reload or the post-reload target — never anything else — and a
`call()` reading the cell at any such instant computes with the fully pre- or
fully post-reload implementation. -/
theorem claim_C6 (R : ReloadCtx PyFunc) (t : PyFunc) (k x : Nat) :
    (runPrefix (reloadActions R PyFunc.name t) k t = t ∨
      runPrefix (reloadActions R PyFunc.name t) k t =
        (baseReload R PyFunc.name t).target) ∧
    (funcCall (runPrefix (reloadActions R PyFunc.name t) k t) x = funcCall t x ∨
      funcCall (runPrefix (reloadActions R PyFunc.name t) k t) x =
        funcCall (baseReload R PyFunc.name t).target x) := by
  have hmain : runPrefix (reloadActions R PyFunc.name t) k t = t ∨
      runPrefix (reloadActions R PyFunc.name t) k t =
        (baseReload R PyFunc.name t).target := by
    cases hb : reloadBody R (PyFunc.name t) with
    | ok t' =>
      have hact : reloadActions R PyFunc.name t = [id, id, id, id, fun _ => t'] := by
        unfold reloadActions
        rw [hb]
        rfl
      have hT : (baseReload R PyFunc.name t).target = t' := by
        rw [baseReload_ok hb]
      rw [hact, hT]
      rcases k with _ | _ | _ | _ | _ | k <;> simp [runPrefix]
    | error e =>
      have hact : reloadActions R PyFunc.name t = [id, id, id, id] := by
        unfold reloadActions
        rw [hb]
        rfl
      rw [hact]
      rcases k with _ | _ | _ | _ | k <;> simp [runPrefix]
  refine ⟨hmain, ?_⟩
  rcases hmain with h | h
  · exact Or.inl (by rw [h])
  · exact Or.inr (by rw [h])

/-- **C7**: at most one OS-level watch exists per directory — the key-distinct
registry invariant is preserved by `start_on_modified_update`, a second trigger
in an already-watched directory adds no registry entry — and a modify event
triggers `reload()` exactly on the units whose watched path is the event's
path, never on directory events or other paths. -/
theorem claim_C7 (st : List (String × List WHandler)) (u : Nat) (fp : FPath)
    (e : FsEvent) (x : Nat) (hnd : keysNodup st) :
    keysNodup (startOnModified st u fp) ∧
    (∀ d, watchCount (startOnModified st u fp) d ≤ 1) ∧
    ((st.find? (fun en => en.1 == fp.dir)).isSome = true →
      (startOnModified st u fp).length = st.length) ∧
    (x ∈ dispatch st e ↔
      e.isDir = false ∧ ∃ hs, lookupDir st e.srcPath.dir = some hs ∧
        ∃ h ∈ hs, h.unitId = x ∧ h.filepath = e.srcPath) := by
  refine ⟨startOnModified_keysNodup u fp hnd,
    fun d => watchCount_le_one (startOnModified_keysNodup u fp hnd) d,
    ?_, dispatch_mem st e x⟩
  intro hf
  unfold startOnModified
  rw [if_pos hf]
  simp

theorem claim_C7_witness :
    keysNodup (startOnModified wSt0 1 wFp0) ∧
    (∀ d, watchCount (startOnModified wSt0 1 wFp0) d ≤ 1) ∧
    ((wSt0.find? (fun en => en.1 == wFp0.dir)).isSome = true →
      (startOnModified wSt0 1 wFp0).length = wSt0.length) ∧
    (0 ∈ dispatch wSt0 wEv0 ↔
      wEv0.isDir = false ∧ ∃ hs, lookupDir wSt0 wEv0.srcPath.dir = some hs ∧
        ∃ h ∈ hs, h.unitId = 0 ∧ h.filepath = wEv0.srcPath) :=
  claim_C7 wSt0 1 wFp0 wEv0 0 (by unfold keysNodup; decide)

/-- **C8**: `stop_periodic_updates` sets the stop flag of every registered
worker and clears the worker registry immediately, performing no join of any
worker; `stop_on_modified_updates` stops and joins every registered observer —
both operations occurring before the registry clear in its operation trace —
and then clears the directory registry. -/
theorem claim_C8 (threads : List PThread) (dict : List (String × Nat)) :
    ((stopPeriodicUpdates threads).2.1 = [] ∧
      (∀ t ∈ (stopPeriodicUpdates threads).1, t.stopping = true) ∧
      (∀ t ∈ threads, MgrOp.setFlag t.tid ∈ (stopPeriodicUpdates threads).2.2) ∧
      (∀ i : Nat, MgrOp.joinObs i ∉ (stopPeriodicUpdates threads).2.2)) ∧
    ((stopOnModifiedUpdates dict).1 = [] ∧
      (∀ en ∈ dict,
        MgrOp.stopObs en.2 ∈
          (stopOnModifiedUpdates dict).2.takeWhile
            (fun op => !(op == MgrOp.clearObs)) ∧
        MgrOp.joinObs en.2 ∈
          (stopOnModifiedUpdates dict).2.takeWhile
            (fun op => !(op == MgrOp.clearObs)))) := by
  refine ⟨⟨rfl, ?_, ?_, ?_⟩, rfl, ?_⟩
  · intro t ht
    simp only [stopPeriodicUpdates, List.mem_map] at ht
    obtain ⟨s, _, rfl⟩ := ht
    rfl
  · intro t ht
    simp only [stopPeriodicUpdates]
    exact List.mem_append_left _ (List.mem_map_of_mem _ ht)
  · intro i hmem
    simp [stopPeriodicUpdates, List.mem_append, List.mem_map] at hmem
  · intro en hen
    have hall : ∀ x ∈ (dict.map
        (fun en' => [MgrOp.stopObs en'.2, MgrOp.joinObs en'.2])).flatten,
        (fun op => !(op == MgrOp.clearObs)) x = true := by
      intro x hx
      simp only [List.mem_flatten, List.mem_map] at hx
      obtain ⟨l, ⟨en', _, rfl⟩, hx⟩ := hx
      simp only [List.mem_cons, List.not_mem_nil, or_false] at hx
      rcases hx with rfl | rfl
      · rfl
      · rfl
    have htw : (stopOnModifiedUpdates dict).2.takeWhile
        (fun op => !(op == MgrOp.clearObs)) =
        (dict.map (fun en' => [MgrOp.stopObs en'.2, MgrOp.joinObs en'.2])).flatten := by
      show ((dict.map _).flatten ++ [MgrOp.clearObs]).takeWhile _ = _
      rw [takeWhile_append_of_all _ _ _ hall]
      simp
    rw [htw]
    constructor
    · exact List.mem_flatten.mpr
        ⟨[MgrOp.stopObs en.2, MgrOp.joinObs en.2],
          List.mem_map_of_mem _ hen, by simp⟩
    · exact List.mem_flatten.mpr
        ⟨[MgrOp.stopObs en.2, MgrOp.joinObs en.2],
          List.mem_map_of_mem _ hen, by simp⟩

theorem claim_C8_witness :
    ((stopPeriodicUpdates wThreads).2.1 = [] ∧
      (⟨0, true⟩ : PThread).stopping = true ∧
      MgrOp.setFlag 0 ∈ (stopPeriodicUpdates wThreads).2.2 ∧
      MgrOp.joinObs 7 ∉ (stopPeriodicUpdates wThreads).2.2) ∧
    ((stopOnModifiedUpdates wDict).1 = [] ∧
      MgrOp.stopObs 7 ∈ (stopOnModifiedUpdates wDict).2.takeWhile
        (fun op => !(op == MgrOp.clearObs)) ∧
      MgrOp.joinObs 7 ∈ (stopOnModifiedUpdates wDict).2.takeWhile
        (fun op => !(op == MgrOp.clearObs))) := by
  have h := claim_C8 wThreads wDict
  exact ⟨⟨h.1.1, h.1.2.1 ⟨0, true⟩ (by decide), h.1.2.2.1 ⟨0, false⟩ (by decide),
      h.1.2.2.2 7⟩,
    ⟨h.2.1, (h.2.2 ("d", 7) (by decide)).1, (h.2.2 ("d", 7) (by decide)).2⟩⟩

/-- **C9**: for a source whose lines are code lines and standard-form reload
directives, `reload()` retrieves the source text, removes exactly the directive
lines before re-evaluating, re-executes the stripped text in the defining
module's namespace, and installs as the new target the freshly defined symbol
with the same name as the old target. -/
theorem claim_C9 (α : Type) (R : ReloadCtx α) (nameOf : α → String) (t : α)
    (lines : List (List Char)) (env : PyEnv α) (t' : α)
    (hg : ∀ l ∈ lines, GoodLine l)
    (hsrc : R.getsource = .ok (joinLines lines))
    (hmod : R.modPresent = true)
    (hexec : R.exec (joinLines (lines.filter codeLine)) = .ok env)
    (henv : env (nameOf t) = some t') :
    baseReload R nameOf t = ⟨t', none, false, true⟩ := by
  have hexec' : R.exec (stripDirectives (joinLines lines)) = .ok env := by
    rw [stripDirectives_lines lines hg]
    exact hexec
  exact baseReload_ok (reloadBody_ok_parts hsrc hmod hexec' henv)

theorem claim_C9_witness :
    baseReload scenCtx PyFunc.name fAdd1 = ⟨fAdd2, none, false, true⟩ :=
  claim_C9 PyFunc scenCtx PyFunc.name fAdd1 srcLines envScen fAdd2
    (by
      intro l hl
      simp only [srcLines, List.mem_cons, List.not_mem_nil, or_false] at hl
      rcases hl with rfl | rfl
      · exact Or.inr (Or.inl rfl)
      · exact Or.inl (by decide))
    rfl rfl rfl rfl

/-- **C10**: the wrapper's attribute fallback calls `target.__getattr__(item)`
rather than performing ordinary attribute lookup on the target; hence for a
plain function or class — whose type defines no `__getattr__` — the access
raises AttributeError even when ordinary lookup would find the attribute. -/
theorem claim_C10 (o : PyObj) (item : String) :
    (∀ f, o.getattrHook = some f → wrapperGetattr o item = f item) ∧
    (o.getattrHook = none →
      wrapperGetattr o item = .error PyExc.attrError ∧
      ∀ v, o.attrs item = some v → pyGetattr o item = .ok v) := by
  constructor
  · intro f hf
    unfold wrapperGetattr
    rw [hf]
  · intro hn
    constructor
    · unfold wrapperGetattr
      rw [hn]
    · intro v hv
      unfold pyGetattr
      rw [hv]

theorem claim_C10_witness :
    wrapperGetattr objHooked "y" = .ok 7 ∧
    (wrapperGetattr objPlain "x" = .error PyExc.attrError ∧
      pyGetattr objPlain "x" = .ok 42) :=
  ⟨(claim_C10 objHooked "y").1 (fun _ => .ok 7) rfl,
    ((claim_C10 objPlain "x").2 rfl).1,
    ((claim_C10 objPlain "x").2 rfl).2 42 rfl⟩

end Reloadrable
